import Mathlib

/-!
A shallow Lean embedding of the SpeedMimi request-dispatch engine:
the `Backend` entity with its atomic connection gauge (`pkg/types/types.go`,
atomic variant), the five load-balancer policies and the trusted-proxy
check (`internal/config/config.go`, the `loadbalancer` package), the
dispatch pipeline, routing-rule lookup, client-IP resolution and the
upstream registry (`internal/proxy/proxy.go`), the configuration
validator and update path (`internal/config/config.go`, the `config`
package) and the admin backend-update handler
(`internal/grpcservice/service.go`).

Modelling conventions: Go `int64`/`int` become `Int` (no operation in
the modelled code can overflow in the claims' scope); Go `float64`
scores become `ℚ` (only the ordering of scores matters for the
properties proved here, never float rounding); atomic fields become
plain fields with state-passing, and an interleaving of atomic
operations becomes a list of operations applied in sequence; Go maps
become association lists, a list order standing for one possible map
iteration order; goroutine-local randomness (`rand.Intn`) becomes an
explicit `Nat` parameter reduced modulo the relevant length.
-/

namespace SpeedMimi

/-- Performance snapshot (`types.PerformanceInfo`); percentages 0-100.
Only the fields read by `CalculateUtilization` matter to the claims. -/
structure PerformanceInfo where
  cpuUsage : ℚ
  memoryUsage : ℚ
  diskUsage : ℚ
  loadAvg1 : ℚ
  loadAvg5 : ℚ
  loadAvg15 : ℚ
deriving Repr, DecidableEq

/-- Backend entity (`types.Backend`, the atomic high-concurrency variant).
`activeField` is the serialised `Active` field, `activeAtomic` the atomic
`active` mirror read by `IsActive`; `disconnect` is the atomic drain mark
(`ShouldDisconnect`, documented in ASYNC_DISCONNECT_FIX.md and used
throughout the load balancers). -/
structure Backend where
  id : String := ""
  name : String := ""
  host : String := ""
  port : Int := 0
  weight : Int := 0
  scheme : String := ""
  activeField : Bool := false
  connections : Int := 0
  maxConn : Int := 0
  performance : Option PerformanceInfo := none
  activeAtomic : Bool := false
  disconnect : Bool := false
deriving Repr, DecidableEq

/-- `Backend.GetConnections`: atomic load of the gauge. -/
def Backend.getConnections (b : Backend) : Int := b.connections

/-- `Backend.IncConnections`: atomic add of 1. -/
def Backend.incConnections (b : Backend) : Backend :=
  { b with connections := b.connections + 1 }

/-- `Backend.DecConnections`: the CAS loop loads the current value,
returns unchanged if it is `≤ 0`, and otherwise swaps in `current - 1`;
each call linearises to this one-step function. -/
def Backend.decConnections (b : Backend) : Backend :=
  if b.connections ≤ 0 then b else { b with connections := b.connections - 1 }

/-- `Backend.SetConnections`: atomic store of the argument, no check. -/
def Backend.setConnections (b : Backend) (conns : Int) : Backend :=
  { b with connections := conns }

/-- `Backend.IsActive`: atomic load of the `active` mirror. -/
def Backend.isActive (b : Backend) : Bool := b.activeAtomic

/-- `Backend.SetActive`: stores the atomic mirror and syncs the
serialised `Active` field. -/
def Backend.setActive (b : Backend) (active : Bool) : Backend :=
  { b with activeAtomic := active, activeField := active }

/-- `Backend.ShouldDisconnect`: atomic load of the disconnect mark. -/
def Backend.shouldDisconnect (b : Backend) : Bool := b.disconnect

/-- `Backend.MarkForDisconnect`: atomic store of the disconnect mark. -/
def Backend.markForDisconnect (b : Backend) : Backend :=
  { b with disconnect := true }

/-- `Backend.IsConnectionLimitReached` (CONNECTION_LIMIT_FEATURE.md):
`MaxConn ≤ 0` means unbounded, otherwise the gauge is compared against
the limit. -/
def Backend.isConnectionLimitReached (b : Backend) : Bool :=
  if b.maxConn ≤ 0 then false else decide (b.getConnections ≥ b.maxConn)

/-- `Backend.CalculateUtilization`: `0.4·cpu/100 + 0.4·mem/100 +
0.2·load1/100`, clipped at 1; 0 without a snapshot. -/
def Backend.calculateUtilization (b : Backend) : ℚ :=
  match b.performance with
  | none => 0
  | some perf =>
    let utilization :=
      perf.cpuUsage / 100 * (4 / 10) + perf.memoryUsage / 100 * (4 / 10) +
        perf.loadAvg1 / 100 * (2 / 10)
    if 1 < utilization then 1 else utilization

/-- One atomic operation on the connection gauge, as issued by the
dispatcher around a proxied request. -/
inductive ConnOp
  | inc
  | dec
deriving Repr, DecidableEq

/-- Apply one atomic gauge operation. -/
def Backend.applyConnOp (b : Backend) : ConnOp → Backend
  | ConnOp.inc => b.incConnections
  | ConnOp.dec => b.decConnections

/-- Apply a sequence of atomic gauge operations; a concurrent history of
`IncConnections`/`DecConnections` calls linearises to such a sequence. -/
def Backend.runConnOps (b : Backend) (ops : List ConnOp) : Backend :=
  ops.foldl Backend.applyConnOp b

/-- UTF-8 bytes of one character, as Go's `[]byte(string)` sees it. -/
def utf8BytesOfChar (c : Char) : List Nat :=
  let n := c.toNat
  if n < 128 then [n]
  else if n < 2048 then [192 + n / 64, 128 + n % 64]
  else if n < 65536 then [224 + n / 4096, 128 + n / 64 % 64, 128 + n % 64]
  else [240 + n / 262144, 128 + n / 4096 % 64, 128 + n / 64 % 64, 128 + n % 64]

/-- UTF-8 byte sequence of a string. -/
def strBytes (s : String) : List Nat :=
  (s.data.map utf8BytesOfChar).flatten

/-- One step of FNV-1a 32-bit: XOR the byte in, multiply by the prime,
truncate to 32 bits. -/
def fnv1a32Step (h b : Nat) : Nat := (h ^^^ b) * 16777619 % 4294967296

/-- `IPHashBalancer.hashIP`: FNV-1a 32-bit over the bytes of the IP
string (`hash/fnv`, offset basis 2166136261, prime 16777619). -/
def fnv1a32 (s : String) : Nat := (strBytes s).foldl fnv1a32Step 2166136261

/-- The eligibility condition every balancer applies, literally
`backend.IsActive() && !backend.ShouldDisconnect() &&
!backend.IsConnectionLimitReached()`. -/
def Backend.eligible (b : Backend) : Bool :=
  b.isActive && !b.shouldDisconnect && !b.isConnectionLimitReached

/-- Go's `math.MaxInt64`, the initial minimum of the scan loops. -/
def maxInt64 : Int := 9223372036854775807

/-- Loop body of the min-connections scan: first strictly smaller
gauge wins. -/
def minStep (acc : Int × Option Backend) (b : Backend) : Int × Option Backend :=
  if b.getConnections < acc.1 then (b.getConnections, some b) else acc

/-- The min-connections scan of `LeastConnectionsBalancer.SelectBackend`:
`minConn := math.MaxInt64`, first strictly smaller gauge wins. -/
def minConnScan (l : List Backend) : Option Backend :=
  (l.foldl minStep (maxInt64, (none : Option Backend))).2

/-- Loop body of `IPHashBalancer.selectRandom`: skip backends failing
`IsActive`, `ShouldDisconnect` or `IsConnectionLimitReached`, otherwise
the min-connections step. -/
def skipMinStep (acc : Int × Option Backend) (b : Backend) : Int × Option Backend :=
  if !b.isActive || b.shouldDisconnect || b.isConnectionLimitReached then acc
  else minStep acc b

/-- `IPHashBalancer.selectRandom` (despite its name a least-connections
scan over the still-eligible members of its input). -/
def selectRandomScan (l : List Backend) : Option Backend :=
  (l.foldl skipMinStep (maxInt64, (none : Option Backend))).2

/-- `IPHashBalancer.SelectBackend`: filters only by the connection
limit, hashes the client IP and indexes the filtered slice; empty
client IP falls back to `selectRandom`. The balancer-side `getClientIP`
stub in the source returns the empty string and documents that the
proxy layer supplies the real client IP, so the IP is a parameter
here. -/
def ipHashSelect (clientIP : String) (backends : List Backend) : Option Backend :=
  if backends.isEmpty then none
  else
    match backends.filter (fun b => !b.isConnectionLimitReached) with
    | [] => none
    | b :: rest =>
      if clientIP = "" then selectRandomScan (b :: rest)
      else
        some ((b :: rest).get
          ⟨fnv1a32 clientIP % (b :: rest).length, Nat.mod_lt _ (Nat.succ_pos _)⟩)

/-- `LeastConnectionsBalancer.SelectBackend`: full eligibility filter,
then the min-connections scan. -/
def leastConnectionsSelect (backends : List Backend) : Option Backend :=
  if backends.isEmpty then none
  else
    let availableBackends := backends.filter Backend.eligible
    if availableBackends.isEmpty then none
    else minConnScan availableBackends

/-- The `connections / max(weight, 1)` score of
`LeastConnectionsWeightBalancer` (float64 in Go, exact here). -/
def lcwScore (b : Backend) : ℚ :=
  let w : Int := if b.weight ≤ 0 then 1 else b.weight
  (b.getConnections : ℚ) / (w : ℚ)

/-- `LeastConnectionsWeightBalancer.SelectBackend`: eligibility filter,
sort ascending by score, gather the leading same-score block, pick
index `r mod length` in it (`rand.Intn` modelled by the `r`
parameter; a single candidate is returned directly). -/
def lcwSelect (r : Nat) (backends : List Backend) : Option Backend :=
  if backends.isEmpty then none
  else
    let candidates := backends.filter Backend.eligible
    if candidates.isEmpty then none
    else
      let sorted := candidates.mergeSort (fun a b => decide (lcwScore a ≤ lcwScore b))
      match sorted.head? with
      | none => none
      | some first =>
        let minScore := lcwScore first
        let sameScoreCandidates := sorted.takeWhile (fun b => decide (lcwScore b = minScore))
        if sameScoreCandidates.length = 1 then sameScoreCandidates.head?
        else sameScoreCandidates[r % sameScoreCandidates.length]?

/-- `WeightBalancer`'s accumulating walk: `currentWeight += weight`,
return the first backend once `0 < currentWeight` (the cursor `r` is
the literal constant 0 in the source). -/
def weightWalk : List Backend → Int → Option Backend
  | [], _ => none
  | b :: rest, currentWeight =>
    if 0 < currentWeight + b.weight then some b
    else weightWalk rest (currentWeight + b.weight)

/-- `WeightBalancer.SelectBackend`: eligibility filter, total-weight
zero check, then the accumulating walk from cursor 0 with
`availableBackends[0]` as fallthrough. -/
def weightSelect (backends : List Backend) : Option Backend :=
  if backends.isEmpty then none
  else
    let availableBackends := backends.filter Backend.eligible
    let totalWeight := (availableBackends.map fun b => b.weight).sum
    if availableBackends.isEmpty then none
    else if totalWeight = 0 then none
    else
      match weightWalk availableBackends 0 with
      | some b => some b
      | none => availableBackends.head?

/-- `PerformanceLCWBalancer.calculateScore`:
`0.7·(connections/max(weight,1)) + 0.3·(utilisation·100)`. -/
def performanceLCWScore (b : Backend) : ℚ :=
  let w : ℚ := if b.weight ≤ 0 then 1 else (b.weight : ℚ)
  (b.getConnections : ℚ) / w * (7 / 10) + b.calculateUtilization * 100 * (3 / 10)

/-- `PerformanceLCWBalancer.SelectBackend`: eligibility filter, sort by
score ascending, first wins. -/
def performanceLCWSelect (backends : List Backend) : Option Backend :=
  if backends.isEmpty then none
  else
    let candidates := backends.filter Backend.eligible
    if candidates.isEmpty then none
    else
      (candidates.mergeSort
        (fun a b => decide (performanceLCWScore a ≤ performanceLCWScore b))).head?

/-- The closed set of balancer implementations registered in the
factory. -/
inductive PolicyKind
  | ipHash
  | leastConnections
  | leastConnectionsWeight
  | weightPolicy
  | performanceLCW
deriving Repr, DecidableEq

/-- `Factory.GetBalancer`: the five registered names; any other
`LoadBalancerType` string falls back to `least_connections_weight`. -/
def getBalancer (lbType : String) : PolicyKind :=
  if lbType = "ip_hash" then PolicyKind.ipHash
  else if lbType = "least_connections" then PolicyKind.leastConnections
  else if lbType = "least_connections_weight" then PolicyKind.leastConnectionsWeight
  else if lbType = "weight" then PolicyKind.weightPolicy
  else if lbType = "performance_least_connections_weight" then PolicyKind.performanceLCW
  else PolicyKind.leastConnectionsWeight

/-- Dispatch `SelectBackend` over the policy variants; `clientIP` and
`r` thread the request-derived inputs. -/
def selectBackend (p : PolicyKind) (clientIP : String) (r : Nat)
    (backends : List Backend) : Option Backend :=
  match p with
  | PolicyKind.ipHash => ipHashSelect clientIP backends
  | PolicyKind.leastConnections => leastConnectionsSelect backends
  | PolicyKind.leastConnectionsWeight => lcwSelect r backends
  | PolicyKind.weightPolicy => weightSelect backends
  | PolicyKind.performanceLCW => performanceLCWSelect backends

/-- Go whitespace trim (`strings.TrimSpace`) on a character list; the
claims' inputs are ASCII, where Go's Unicode space classes coincide
with `Char.isWhitespace`. -/
def trimSpace (cs : List Char) : List Char :=
  ((cs.dropWhile Char.isWhitespace).reverse.dropWhile Char.isWhitespace).reverse

/-- `strings.HasPrefix s p` on character lists. Both strings are valid
UTF-8, so Go's byte-level test agrees with the character-level one. -/
def charsStartWith : List Char → List Char → Bool
  | _, [] => true
  | [], _ :: _ => false
  | c :: cs, p :: ps => c = p && charsStartWith cs ps

/-- `strings.HasPrefix`. -/
def strStartsWith (s p : String) : Bool := charsStartWith s.data p.data

/-- One dotted-quad field of `net.ParseIP` (Go 1.17+ rules: 1-3 decimal
digits, value at most 255, no leading zero). -/
def ipv4Field (cs : List Char) : Option Nat :=
  if cs.isEmpty then none
  else if 3 < cs.length then none
  else if !cs.all Char.isDigit then none
  else if 1 < cs.length ∧ cs.head? = some '0' then none
  else
    let v := cs.foldl (fun a c => a * 10 + (c.toNat - 48)) 0
    if v ≤ 255 then some v else none

/-- `net.ParseIP` restricted to IPv4 dotted-quad form, as a 32-bit
value. IPv6 parsing is not modelled; the claims and all instances here
use IPv4 literals, for which this is faithful. -/
def parseIPv4 (s : String) : Option Nat :=
  match (s.data.splitOn '.').mapM ipv4Field with
  | some [a, b, c, d] => some (((a * 256 + b) * 256 + c) * 256 + d)
  | _ => none

/-- `net.ParseCIDR` for IPv4: base address and mask length `0..32`
(Go masks the base on parse; containment below compares the masked
high bits directly, which is equivalent). -/
def parseCIDR (s : String) : Option (Nat × Nat) :=
  match s.data.splitOn '/' with
  | [ipPart, maskPart] =>
    match parseIPv4 (String.mk ipPart) with
    | none => none
    | some ip =>
      if maskPart.isEmpty ∨ 2 < maskPart.length ∨ !maskPart.all Char.isDigit then none
      else
        let m := maskPart.foldl (fun a c => a * 10 + (c.toNat - 48)) 0
        if m ≤ 32 then some (ip, m) else none
  | _ => none

/-- `net.IPNet.Contains`: the high `maskLen` bits agree. -/
def cidrContains (base maskLen ip : Nat) : Bool :=
  ip / 2 ^ (32 - maskLen) = base / 2 ^ (32 - maskLen)

/-- `loadbalancer.IsTrustedProxy`: parse the IP, scan the CIDR list,
skip unparsable entries, true on the first containment. -/
def isTrustedProxy (ip : String) (trustedProxies : List String) : Bool :=
  match parseIPv4 ip with
  | none => false
  | some clientIP =>
    trustedProxies.any fun cidr =>
      match parseCIDR cidr with
      | some (base, m) => cidrContains base m clientIP
      | none => false

/-- Server section of the configuration (`types.ServerConfig`);
timeouts are opaque durations, irrelevant to the claims. -/
structure ServerConfig where
  host : String := ""
  port : Int := 0
  readTimeout : Int := 0
  writeTimeout : Int := 0
  maxConn : Int := 0
  realIPHeader : String := ""
  trustedProxies : List String := []
deriving Repr, DecidableEq

/-- TLS section (`types.SSLConfig`). -/
structure SSLConfig where
  enabled : Bool := false
  certFile : String := ""
  keyFile : String := ""
deriving Repr, DecidableEq

/-- Routing rule (`types.RoutingRule`); the protocol-override map and
the policy name are plain strings, as in Go. -/
structure RoutingRule where
  path : String := ""
  upstream : String := ""
  loadBalancer : String := ""
  protocols : List (String × String) := []
deriving Repr, DecidableEq

/-- Whole configuration (`types.Config`); the Go maps
`Backends` and `Routing` become association lists whose order stands
for one possible map iteration order. -/
structure Config where
  server : ServerConfig := {}
  ssl : SSLConfig := {}
  backends : List (String × List Backend) := []
  routing : List (String × RoutingRule) := []
deriving Repr, DecidableEq

/-- The slice of an inbound request the dispatcher reads: path,
headers (exact-name lookup stands in for fasthttp's `Peek`), TLS flag,
peer address, and an oracle for the tie-break randomness of
`least_connections_weight`. -/
structure Request where
  path : String := ""
  headers : List (String × String) := []
  isTLS : Bool := false
  remoteIP : String := ""
  rand : Nat := 0
deriving Repr, DecidableEq

/-- fasthttp `Header.Peek`: empty string when the header is absent. -/
def Request.peekHeader (req : Request) (key : String) : String :=
  match req.headers.lookup key with
  | some v => v
  | none => ""

/-- `strings.Index(s, ",")`: index of the first comma, `none` standing
for Go's -1. -/
def firstCommaIdx : List Char → Option Nat
  | [] => none
  | c :: cs => if c = ',' then some 0 else (firstCommaIdx cs).map (· + 1)

/-- `Server.getClientIP` (`internal/proxy/proxy.go`): the configured
real-IP header verbatim if present; else, when `X-Forwarded-For` has a
comma at an index greater than 0, the trimmed text before it, provided
that value passes `IsTrustedProxy`; else the TCP peer address. -/
def getClientIP (cfg : ServerConfig) (req : Request) : String :=
  if cfg.realIPHeader ≠ "" ∧ req.peekHeader cfg.realIPHeader ≠ "" then
    req.peekHeader cfg.realIPHeader
  else
    let xff := req.peekHeader "X-Forwarded-For"
    let viaXff : Option String :=
      if xff ≠ "" then
        match firstCommaIdx xff.data with
        | some idx =>
          if 0 < idx then
            let ip := String.mk (trimSpace (xff.data.take idx))
            if isTrustedProxy ip cfg.trustedProxies then some ip else none
          else none
        | none => none
      else none
    match viaXff with
    | some ip => ip
    | none => req.remoteIP

/-- `Server.detectProtocol`: websocket by `Upgrade`, SSE by `Accept`,
then TLS decides https/http. -/
def detectProtocol (req : Request) : String :=
  if req.peekHeader "Upgrade" = "websocket" then "websocket"
  else if req.peekHeader "Accept" = "text/event-stream" then "sse"
  else if req.isTLS then "https"
  else "http"

/-- `Server.determineLBType`: protocol-specific override if present,
else the rule's default. -/
def determineLBType (rule : RoutingRule) (req : Request) : String :=
  match rule.protocols.lookup (detectProtocol req) with
  | some t => t
  | none => rule.loadBalancer

/-- The range loop of `Server.findRoutingRule`: first rule in iteration
order whose `Path` is a prefix of the request path. -/
def findFirstRuleMatch : List (String × RoutingRule) → String → Option RoutingRule
  | [], _ => none
  | (_, rule) :: rest, path =>
    if strStartsWith path rule.path then some rule
    else findFirstRuleMatch rest path

/-- `Server.findRoutingRule`: the loop above, then the rule named
`default`, else none. -/
def findRoutingRule (routing : List (String × RoutingRule)) (path : String) :
    Option RoutingRule :=
  match findFirstRuleMatch routing path with
  | some rule => some rule
  | none => routing.lookup "default"

/-- A named upstream (`proxy.Upstream`): the backing backend slice. -/
structure Upstream where
  name : String := ""
  backends : List Backend := []
deriving Repr, DecidableEq

/-- `Upstream.GetBackends`: the snapshot the dispatcher and the admin
handlers consume; keeps a backend only when both the atomic mirror and
the serialised `Active` field are true. -/
def Upstream.getBackends (u : Upstream) : List Backend :=
  u.backends.filter fun b => b.isActive && b.activeField

/-- `UpstreamManager.GetUpstream`: name lookup in the registry. -/
def getUpstream (upstreams : List Upstream) (name : String) : Option Upstream :=
  upstreams.find? fun u => u.name == name

/-- What `Server.handleRequest` does with a request: an HTTP error
response, or forwarding to the selected backend. -/
inductive DispatchOutcome
  | respond (status : Nat) (body : String)
  | forward (b : Backend)
deriving Repr, DecidableEq

/-- `Server.handleRequest`: route lookup (404 on miss), upstream lookup
(generic 503 on miss), active snapshot (generic 503 when empty), policy
resolution, selection (503 with the connection-limit literal when the
policy returns nil), else forward. The client IP reaching `ip_hash` is
taken from `getClientIP`, as the source documents the proxy layer is to
supply it (the balancer-side stub returns the empty string). -/
def handleRequest (cfg : Config) (upstreams : List Upstream) (req : Request) :
    DispatchOutcome :=
  match findRoutingRule cfg.routing req.path with
  | none => DispatchOutcome.respond 404 "Not Found"
  | some rule =>
    match getUpstream upstreams rule.upstream with
    | none => DispatchOutcome.respond 503 "Service Unavailable"
    | some upstream =>
      let backends := upstream.getBackends
      if backends.isEmpty then DispatchOutcome.respond 503 "Service Unavailable"
      else
        match selectBackend (getBalancer (determineLBType rule req))
            (getClientIP cfg.server req) req.rand backends with
        | none =>
          DispatchOutcome.respond 503
            "Service Unavailable (All backends at connection limit)"
        | some b => DispatchOutcome.forward b

/-- Per-backend validation inside `Manager.validateConfig`'s loop:
empty host, then port range. -/
def validateBackend (upstream : String) (b : Backend) : Option String :=
  if b.host = "" then some ("backend host is required for upstream " ++ upstream)
  else if b.port ≤ 0 ∨ 65535 < b.port then
    some ("invalid backend port for upstream " ++ upstream)
  else none

/-- Per-upstream validation: zero backends, then each backend. -/
def validateUpstreamEntry (entry : String × List Backend) : Option String :=
  if entry.2.isEmpty then some ("upstream " ++ entry.1 ++ " has no backends")
  else entry.2.findSome? (validateBackend entry.1)

/-- Per-routing-rule validation: empty upstream name, then existence of
the upstream's backend entry. -/
def validateRoutingEntry (c : Config) (entry : String × RoutingRule) : Option String :=
  if entry.2.upstream = "" then
    some ("upstream is required for routing rule " ++ entry.1)
  else
    match c.backends.lookup entry.2.upstream with
    | some _ => none
    | none =>
      some ("upstream " ++ entry.2.upstream ++ " not found for routing rule " ++ entry.1)

/-- `Manager.validateConfig`: server port, TLS material, the backends
loop, the routing loop; the first failure wins. -/
def validateConfig (c : Config) : Option String :=
  if c.server.port ≤ 0 ∨ 65535 < c.server.port then some "invalid server port"
  else if c.ssl.enabled ∧ c.ssl.certFile = "" then
    some "SSL cert file is required when SSL is enabled"
  else if c.ssl.enabled ∧ c.ssl.keyFile = "" then
    some "SSL key file is required when SSL is enabled"
  else
    match c.backends.findSome? validateUpstreamEntry with
    | some e => some e
    | none => c.routing.findSome? (validateRoutingEntry c)

/-- The manager's mutable state: the live in-memory configuration and
the persisted on-disk one (`saveConfig` is modelled as an
always-successful write; file I/O is an external collaborator). -/
structure ManagerState where
  config : Config
  diskConfig : Config
deriving Repr, DecidableEq

/-- `Manager.UpdateConfig`: validate, then persist, then replace the
in-memory configuration; on a validation error nothing is touched and
the wrapped error is returned. -/
def updateConfig (st : ManagerState) (c : Config) : Option String × ManagerState :=
  match validateConfig c with
  | some e => (some ("invalid config: " ++ e), st)
  | none => (none, { config := c, diskConfig := c })

/-- The validation rules exactly as the claim (and spec §4.5) lists
them, for refinement comparison with `validateConfig`: port outside
[1, 65535]; TLS enabled without cert or key path; an upstream with
zero backends; a backend with empty host or port outside [1, 65535]; a
routing rule whose upstream name has no backend entry. -/
def claimConfigViolation (c : Config) : Bool :=
  (decide (c.server.port < 1) || decide (65535 < c.server.port))
    || (c.ssl.enabled && (c.ssl.certFile == "" || c.ssl.keyFile == ""))
    || c.backends.any (fun entry => entry.2.isEmpty)
    || c.backends.any (fun entry =>
        entry.2.any fun b =>
          b.host == "" || decide (b.port < 1) || decide (65535 < b.port))
    || c.routing.any (fun entry => (c.backends.lookup entry.2.upstream).isNone)

/-- The outcome of the admin `handleUpdateBackend` handler, after JSON
decoding (400 on malformed bodies is outside the modelled slice). -/
inductive UpdateBackendResult
  | badRequest (msg : String)
  | notFound (msg : String)
  | ok
deriving Repr, DecidableEq

/-- The handler's find-and-mutate loop: it scans `GetBackends()` (the
active-filtered snapshot) for the ID and sets `MaxConn` on the backend
it finds; on the unfiltered slice that is exactly: update the first
backend passing the active filter and carrying the ID. -/
def updateBackendInList (backendID : String) (maxConn : Int) :
    List Backend → Option (List Backend)
  | [] => none
  | b :: rest =>
    if (b.isActive && b.activeField) && b.id == backendID then
      some ({ b with maxConn := maxConn } :: rest)
    else
      match updateBackendInList backendID maxConn rest with
      | some rest2 => some (b :: rest2)
      | none => none

/-- Write the mutated backend slice back into the registry entry the
handler had looked up (pointer mutation in Go). -/
def replaceUpstreamBackends (name : String) (bs : List Backend) :
    List Upstream → List Upstream
  | [] => []
  | u :: rest =>
    if u.name == name then { u with backends := bs } :: rest
    else u :: replaceUpstreamBackends name bs rest

/-- `Server.handleUpdateBackend` (`internal/grpcservice/service.go`)
after JSON decoding: required-field check, upstream lookup, then the
find-and-mutate loop over the active-filtered snapshot. -/
def handleUpdateBackend (upstreams : List Upstream) (upstreamID backendID : String)
    (maxConn : Int) : UpdateBackendResult × List Upstream :=
  if upstreamID = "" ∨ backendID = "" then
    (UpdateBackendResult.badRequest "upstream_id and backend_id are required", upstreams)
  else
    match getUpstream upstreams upstreamID with
    | none => (UpdateBackendResult.notFound "upstream not found", upstreams)
    | some u =>
      match updateBackendInList backendID maxConn u.backends with
      | none => (UpdateBackendResult.notFound "backend not found", upstreams)
      | some bs2 => (UpdateBackendResult.ok, replaceUpstreamBackends upstreamID bs2 upstreams)

/-- Client-IP resolution as the amended claim words it: the configured
real-IP header verbatim when present; else, when `X-Forwarded-For`
contains a comma whose first occurrence is not at position 0 and the
trimmed text before that comma itself lies inside a trusted-proxy CIDR,
that trimmed value; otherwise the TCP peer address. For refinement
comparison with `getClientIP`. -/
def specClientIP (cfg : ServerConfig) (req : Request) : String :=
  if cfg.realIPHeader ≠ "" ∧ req.peekHeader cfg.realIPHeader ≠ "" then
    req.peekHeader cfg.realIPHeader
  else
    let xff := req.peekHeader "X-Forwarded-For"
    let firstElem := String.mk (trimSpace (xff.data.takeWhile fun c => c ≠ ','))
    if ',' ∈ xff.data ∧ xff.data.head? ≠ some ',' ∧
        isTrustedProxy firstElem cfg.trustedProxies = true then firstElem
    else req.remoteIP

/-- Routing lookup as the amended claim words it: the first rule in map
iteration order whose path is a prefix of the request path, else the
rule named `default`, else none. For refinement comparison with
`findRoutingRule`. -/
def specFindRoutingRule (routing : List (String × RoutingRule)) (path : String) :
    Option RoutingRule :=
  match routing.find? (fun entry => strStartsWith path entry.2.path) with
  | some entry => some entry.2
  | none => routing.lookup "default"

/-- The extra rejection `validateConfig` performs beyond the claim's
list: a routing rule whose upstream name is the empty string. -/
def ruleHasEmptyUpstreamName (c : Config) : Bool :=
  c.routing.any fun entry => entry.2.upstream == ""

/-- A healthy, eligible, idle backend used by concrete instances. -/
def idleBackend : Backend :=
  { id := "b1", host := "h1", port := 8081, weight := 100, scheme := "http",
    activeField := true, activeAtomic := true }

/-- A second eligible backend, for multi-candidate instances. -/
def idleBackend2 : Backend :=
  { id := "b2", host := "h2", port := 8082, weight := 100, scheme := "http",
    activeField := true, activeAtomic := true }

/-- An administratively inactive backend that is far from any
connection limit (`active` false both atomically and serialised). -/
def inactiveIdleBackend : Backend :=
  { id := "b1", host := "h1", port := 8081, weight := 100, scheme := "http",
    activeField := false, activeAtomic := false }

/-- An active backend whose drain mark is set (`MarkForDisconnect`
already observed) and which is far from any connection limit. -/
def drainingBackend : Backend :=
  { id := "d1", host := "h1", port := 8081, weight := 100, scheme := "http",
    activeField := true, activeAtomic := true, disconnect := true }

/-- Routing rule on `/` used by dispatch instances. -/
def ruleRoot : RoutingRule :=
  { path := "/", upstream := "u1", loadBalancer := "least_connections" }

/-- Routing rule on `/api` with a strictly longer prefix. -/
def ruleApi : RoutingRule :=
  { path := "/api", upstream := "u2", loadBalancer := "least_connections" }

/-- A routing table in which the shorter prefix precedes the longer one
in iteration order. -/
def demoRouting : List (String × RoutingRule) := [("r1", ruleRoot), ("r2", ruleApi)]

/-- Dispatch configuration whose single upstream holds only a draining
backend. -/
def drainingConfig : Config :=
  { server := { port := 8080 },
    backends := [("u1", [drainingBackend])],
    routing := [("r1", ruleRoot)] }

/-- Registry matching `drainingConfig`. -/
def drainingUpstreams : List Upstream := [{ name := "u1", backends := [drainingBackend] }]

/-- A request to `/a` from peer 10.0.0.1, no special headers. -/
def plainRequest : Request := { path := "/a", remoteIP := "10.0.0.1" }

/-- Proxy-layer configuration trusting 10.0.0.0/8, no real-IP header. -/
def xffServerConfig : ServerConfig := { trustedProxies := ["10.0.0.0/8"] }

/-- A request carrying a single-element `X-Forwarded-For` from a
trusted peer. -/
def xffSingleRequest : Request :=
  { path := "/", headers := [("X-Forwarded-For", "198.51.100.2")], remoteIP := "10.0.0.1" }

/-- A request whose `X-Forwarded-For` has two elements; the first
element is not inside the trusted CIDR but the TCP peer is. -/
def xffListRequest : Request :=
  { path := "/",
    headers := [("X-Forwarded-For", "198.51.100.2, 70.1.2.3")],
    remoteIP := "10.0.0.1" }

/-- A valid backend living under the empty-string upstream name. -/
def emptyNameBackend : Backend :=
  { id := "e1", host := "h", port := 80, weight := 100 }

/-- A configuration whose routing rule names the empty-string upstream,
which does have a backend entry: every rule on the claim's list is
satisfied, yet `validateConfig` rejects it. -/
def emptyNameConfig : Config :=
  { server := { port := 8080 },
    backends := [("", [emptyNameBackend])],
    routing := [("r1", { path := "/", upstream := "" })] }

/-- A well-formed configuration, as the pre-state of update calls. -/
def baseConfig : Config :=
  { server := { port := 8080 },
    backends := [("u1", [idleBackend])],
    routing := [("r1", ruleRoot)] }

/-- Weight-policy backends: eligible, idle, weights 1, 2 and 3. -/
def weightBackend1 : Backend :=
  { id := "w1", host := "h1", port := 1, weight := 1, activeField := true,
    activeAtomic := true }

/-- Weight 2 sibling of `weightBackend1`. -/
def weightBackend2 : Backend :=
  { id := "w2", host := "h2", port := 2, weight := 2, activeField := true,
    activeAtomic := true }

/-- Weight 3 sibling of `weightBackend1`. -/
def weightBackend3 : Backend :=
  { id := "w3", host := "h3", port := 3, weight := 3, activeField := true,
    activeAtomic := true }

/-- Registry holding one upstream whose only backend with ID `b1`
exists but is inactive. -/
def inactiveRegistry : List Upstream :=
  [{ name := "u1", backends := [inactiveIdleBackend] }]

theorem applyConnOp_nonneg (b : Backend) (op : ConnOp) (h : 0 ≤ b.getConnections) :
    0 ≤ (b.applyConnOp op).getConnections := by
  cases op with
  | inc =>
    simp only [Backend.applyConnOp, Backend.incConnections, Backend.getConnections] at h ⊢
    omega
  | dec =>
    simp only [Backend.applyConnOp, Backend.decConnections, Backend.getConnections] at h ⊢
    by_cases hc : b.connections ≤ 0
    · simpa [hc] using h
    · simp [hc]
      omega

/-- Claim C1: starting from a non-negative gauge, any linearised
sequence of `IncConnections`/`DecConnections` calls (hence any
interleaving of the atomic operations) keeps `GetConnections() ≥ 0`,
and `DecConnections` on a gauge of 0 leaves it at 0. -/
theorem connectionGauge_nonneg :
    (∀ (b : Backend) (ops : List ConnOp),
        0 ≤ b.getConnections → 0 ≤ (b.runConnOps ops).getConnections)
    ∧ ∀ b : Backend, b.getConnections = 0 → b.decConnections.getConnections = 0 := by
  constructor
  · intro b ops
    induction ops generalizing b with
    | nil => intro h; exact h
    | cons op rest ih =>
      intro h
      exact ih (b.applyConnOp op) (applyConnOp_nonneg b op h)
  · intro b h
    simp only [Backend.getConnections] at h
    simp [Backend.decConnections, Backend.getConnections, h]

theorem connectionGauge_nonneg_witness :
    0 ≤ idleBackend.getConnections ∧
      0 ≤ (idleBackend.runConnOps [ConnOp.dec, ConnOp.inc, ConnOp.dec, ConnOp.dec]).getConnections :=
  ⟨by decide, connectionGauge_nonneg.1 idleBackend [ConnOp.dec, ConnOp.inc, ConnOp.dec, ConnOp.dec] (by decide)⟩

/-- Claim C10: `SetConnections` stores its argument without any
non-negativity check; storing a negative value makes `GetConnections`
observe a negative gauge. -/
theorem setConnections_unchecked :
    (∀ (b : Backend) (n : Int), (b.setConnections n).getConnections = n)
    ∧ (idleBackend.setConnections (-5)).getConnections = -5
    ∧ (idleBackend.setConnections (-5)).getConnections < 0 := by
  refine ⟨fun b n => rfl, rfl, by decide⟩

/-- Claim C8: the weight policy's cursor is the literal constant 0, so
with three idle eligible backends of weights 1, 2 and 3 the selection
is always the first backend of the (filtered) slice, whatever the
weights: the observed distribution over any number of requests is
100 % to the first backend, not 1:2:3. -/
theorem weightSelect_first_pick :
    weightSelect [weightBackend1, weightBackend2, weightBackend3] = some weightBackend1
    ∧ weightSelect [weightBackend2, weightBackend1, weightBackend3] = some weightBackend2
    ∧ weightSelect [weightBackend3, weightBackend1, weightBackend2] = some weightBackend3
    ∧ weightBackend1.weight = 1 ∧ weightBackend2.weight = 2 ∧ weightBackend3.weight = 3 := by
  decide

theorem foldl_minStep_mem (l : List Backend) :
    ∀ (acc : Int × Option Backend) (b : Backend),
      (l.foldl minStep acc).2 = some b → acc.2 = some b ∨ b ∈ l := by
  induction l with
  | nil => intro acc b h; exact Or.inl h
  | cons x xs ih =>
    intro acc b h
    rw [List.foldl_cons] at h
    rcases ih (minStep acc x) b h with h' | h'
    · unfold minStep at h'
      by_cases hx : x.getConnections < acc.1
      · rw [if_pos hx] at h'
        obtain rfl := Option.some.inj h'
        exact Or.inr (List.mem_cons_self x xs)
      · rw [if_neg hx] at h'
        exact Or.inl h'
    · exact Or.inr (List.mem_cons_of_mem x h')

theorem skipCond_eq_not_eligible : ∀ a d l : Bool, (!a || d || l) = !(a && !d && !l) := by
  decide

theorem foldl_skipMinStep_eq_filter (l : List Backend) :
    ∀ acc : Int × Option Backend,
      l.foldl skipMinStep acc = (l.filter Backend.eligible).foldl minStep acc := by
  induction l with
  | nil => intro acc; rfl
  | cons x xs ih =>
    intro acc
    have hcond : (!x.isActive || x.shouldDisconnect || x.isConnectionLimitReached) =
        !(x.eligible) :=
      skipCond_eq_not_eligible x.isActive x.shouldDisconnect x.isConnectionLimitReached
    by_cases hx : x.eligible = true
    · have hskip : skipMinStep acc x = minStep acc x := by
        simp [skipMinStep, hcond, hx]
      rw [List.foldl_cons, hskip, List.filter_cons_of_pos hx, List.foldl_cons]
      exact ih (minStep acc x)
    · have hxf : x.eligible = false := by simpa using hx
      have hskip : skipMinStep acc x = acc := by
        simp [skipMinStep, hcond, hxf]
      rw [List.foldl_cons, hskip, List.filter_cons_of_neg (by simpa using hx)]
      exact ih acc

theorem selectRandomScan_eq_minConnScan (l : List Backend) :
    selectRandomScan l = minConnScan (l.filter Backend.eligible) := by
  unfold selectRandomScan minConnScan
  rw [foldl_skipMinStep_eq_filter]

theorem eligible_not_limit {b : Backend} (h : b.eligible = true) :
    (!b.isConnectionLimitReached) = true := by
  unfold Backend.eligible at h
  simp only [Bool.and_eq_true] at h
  exact h.2

theorem mem_filter_eligible_mem_limit {b : Backend} {l : List Backend}
    (h : b ∈ l.filter Backend.eligible) :
    b ∈ l.filter fun x => !x.isConnectionLimitReached := by
  rw [List.mem_filter] at h ⊢
  exact ⟨h.1, eligible_not_limit h.2⟩

theorem weightWalk_mem (l : List Backend) :
    ∀ (cw : Int) (b : Backend), weightWalk l cw = some b → b ∈ l := by
  induction l with
  | nil => intro cw b h; cases h
  | cons x xs ih =>
    intro cw b h
    unfold weightWalk at h
    by_cases hx : 0 < cw + x.weight
    · rw [if_pos hx] at h
      obtain rfl := Option.some.inj h
      exact List.mem_cons_self x xs
    · rw [if_neg hx] at h
      exact List.mem_cons_of_mem x (ih _ b h)

theorem mem_of_head?_some {α : Type} {l : List α} {a : α} (h : l.head? = some a) :
    a ∈ l := by
  cases l with
  | nil => cases h
  | cons x xs =>
    obtain rfl := Option.some.inj h
    exact List.mem_cons_self x xs

/-- Claim C2 (amended): every policy returns `none` or a backend from
the candidate slice that is below its connection limit; every policy
except the hash-index path of `ip_hash` moreover returns a member of
the fully eligibility-filtered set (`active ∧ ¬draining ∧ ¬at_limit`).
The `ip_hash` hash path filters only by the connection limit. -/
theorem selectBackend_membership :
    ∀ (p : PolicyKind) (ip : String) (r : Nat) (backends : List Backend) (b : Backend),
      selectBackend p ip r backends = some b →
      b ∈ backends.filter (fun x => !x.isConnectionLimitReached) ∧
        ((p = PolicyKind.ipHash ∧ ip ≠ "") ∨ b ∈ backends.filter Backend.eligible) := by
  intro p ip r backends b h
  cases p with
  | ipHash =>
    simp only [selectBackend, ipHashSelect] at h
    split at h
    · cases h
    · split at h
      · cases h
      · rename_i x rest heq
        split at h
        · rename_i hip
          rw [selectRandomScan_eq_minConnScan] at h
          unfold minConnScan at h
          rcases foldl_minStep_mem _ _ _ h with h' | h'
          · cases h'
          · rw [List.mem_filter] at h'
            have hbmem : b ∈ backends.filter fun x => !x.isConnectionLimitReached := by
              rw [heq]
              exact h'.1
            refine ⟨hbmem, Or.inr ?_⟩
            rw [List.mem_filter]
            exact ⟨(List.mem_filter.mp hbmem).1, h'.2⟩
        · rename_i hip
          obtain rfl := Option.some.inj h
          refine ⟨?_, Or.inl ⟨rfl, hip⟩⟩
          rw [heq]
          exact List.get_mem _ _ _
  | leastConnections =>
    simp only [selectBackend, leastConnectionsSelect] at h
    split at h
    · cases h
    · split at h
      · cases h
      · unfold minConnScan at h
        rcases foldl_minStep_mem _ _ _ h with h' | h'
        · cases h'
        · exact ⟨mem_filter_eligible_mem_limit h', Or.inr h'⟩
  | leastConnectionsWeight =>
    simp only [selectBackend, lcwSelect] at h
    split at h
    · cases h
    · split at h
      · cases h
      · split at h
        · cases h
        · have hmem : b ∈ backends.filter Backend.eligible := by
            split at h
            · have h1 := mem_of_head?_some h
              have h2 := (List.takeWhile_sublist _).mem h1
              exact ((List.mergeSort_perm _ _).mem_iff).mp h2
            · have h1 := List.getElem?_mem h
              have h2 := (List.takeWhile_sublist _).mem h1
              exact ((List.mergeSort_perm _ _).mem_iff).mp h2
          exact ⟨mem_filter_eligible_mem_limit hmem, Or.inr hmem⟩
  | weightPolicy =>
    simp only [selectBackend, weightSelect] at h
    split at h
    · cases h
    · split at h
      · cases h
      · split at h
        · cases h
        · have hmem : b ∈ backends.filter Backend.eligible := by
            split at h
            · rename_i b' heq
              obtain rfl := Option.some.inj h
              exact weightWalk_mem _ _ _ heq
            · exact mem_of_head?_some h
          exact ⟨mem_filter_eligible_mem_limit hmem, Or.inr hmem⟩
  | performanceLCW =>
    simp only [selectBackend, performanceLCWSelect] at h
    split at h
    · cases h
    · split at h
      · cases h
      · have hmem : b ∈ backends.filter Backend.eligible := by
          have h1 := mem_of_head?_some h
          exact ((List.mergeSort_perm _ _).mem_iff).mp h1
        exact ⟨mem_filter_eligible_mem_limit hmem, Or.inr hmem⟩

theorem selectBackend_membership_witness :
    selectBackend PolicyKind.leastConnections "203.0.113.7" 0 [idleBackend] = some idleBackend
    ∧ (idleBackend ∈ [idleBackend].filter (fun x => !x.isConnectionLimitReached) ∧
        ((PolicyKind.leastConnections = PolicyKind.ipHash ∧ ("203.0.113.7" : String) ≠ "") ∨
          idleBackend ∈ [idleBackend].filter Backend.eligible)) :=
  ⟨by decide, selectBackend_membership PolicyKind.leastConnections "203.0.113.7" 0
    [idleBackend] idleBackend (by decide)⟩

/-- Claim C2 counterexample: on the hash-index path `ip_hash` filters
only by the connection limit, so with a candidate slice holding one
inactive (hence ineligible) backend under its limit, the policy returns
that inactive backend instead of `none`. -/
theorem ipHash_hashPath_returns_inactive :
    ipHashSelect "203.0.113.7" [inactiveIdleBackend] = some inactiveIdleBackend
    ∧ inactiveIdleBackend.isActive = false
    ∧ inactiveIdleBackend.isConnectionLimitReached = false := by
  decide

theorem and3_absorb : ∀ a d l : Bool, ((a && !d && !l) && !l) = (a && !d && !l) := by
  decide

theorem eligible_and_not_limit (b : Backend) :
    (b.eligible && !b.isConnectionLimitReached) = b.eligible :=
  and3_absorb b.isActive b.shouldDisconnect b.isConnectionLimitReached

theorem filter_eligible_through_limit (backends : List Backend) :
    (backends.filter fun b => !b.isConnectionLimitReached).filter Backend.eligible =
      backends.filter Backend.eligible := by
  rw [List.filter_filter]
  exact List.filter_congr fun b _ => eligible_and_not_limit b

theorem ipHash_hashPath_formula (backends : List Backend) (ip : String)
    (hip : ip ≠ "") (helig : ∀ b ∈ backends, b.eligible = true) :
    ipHashSelect ip backends = backends.get? (fnv1a32 ip % backends.length) := by
  have hfilter : backends.filter (fun b => !b.isConnectionLimitReached) = backends :=
    List.filter_eq_self.mpr fun b hb => eligible_not_limit (helig b hb)
  unfold ipHashSelect
  cases backends with
  | nil => simp
  | cons x rest =>
    rw [if_neg (by simp), hfilter]
    simp only [if_neg hip]
    exact (List.get?_eq_get (Nat.mod_lt _ (by simp))).symm

theorem ipHash_emptyIP_fallback (backends : List Backend) :
    ipHashSelect "" backends = leastConnectionsSelect backends := by
  unfold ipHashSelect leastConnectionsSelect
  by_cases he : backends.isEmpty
  · rw [if_pos he, if_pos he]
  · rw [if_neg he, if_neg he]
    rcases heq : backends.filter (fun b => !b.isConnectionLimitReached) with _ | ⟨x, rest⟩
    · have havail : backends.filter Backend.eligible = [] := by
        rw [← filter_eligible_through_limit, heq]
        rfl
      rw [heq]
      simp [havail]
    · have havail : backends.filter Backend.eligible = (x :: rest).filter Backend.eligible := by
        rw [← filter_eligible_through_limit, heq]
      rw [heq]
      show selectRandomScan (x :: rest) = _
      rw [selectRandomScan_eq_minConnScan, ← havail]
      by_cases hae : (backends.filter Backend.eligible).isEmpty
      · rw [if_pos hae, List.isEmpty_iff.mp hae]
        rfl
      · rw [if_neg hae]

/-- Claim C7: with a non-empty client IP and a candidate slice whose
members are all eligible, `ip_hash` returns exactly the candidate at
index `fnv1a32(ip) mod count` — a pure function of the eligible slice
and the IP, independent of the connection gauges — and with an
unobtainable (empty) client IP it coincides with `least_connections`
on the same slice. -/
theorem ipHash_stability :
    (∀ (backends : List Backend) (ip : String),
        ip ≠ "" → (∀ b ∈ backends, b.eligible = true) →
        ipHashSelect ip backends = backends.get? (fnv1a32 ip % backends.length))
    ∧ ∀ backends : List Backend, ipHashSelect "" backends = leastConnectionsSelect backends :=
  ⟨ipHash_hashPath_formula, ipHash_emptyIP_fallback⟩

theorem ipHash_stability_witness :
    ("203.0.113.7" : String) ≠ ""
    ∧ (∀ b ∈ [idleBackend, idleBackend2], b.eligible = true)
    ∧ ipHashSelect "203.0.113.7" [idleBackend, idleBackend2] =
        [idleBackend, idleBackend2].get?
          (fnv1a32 "203.0.113.7" % ([idleBackend, idleBackend2] : List Backend).length) :=
  ⟨by decide, by decide,
    ipHash_stability.1 [idleBackend, idleBackend2] "203.0.113.7" (by decide) (by decide)⟩

theorem findFirstRuleMatch_eq_find? (routing : List (String × RoutingRule)) (path : String) :
    findFirstRuleMatch routing path =
      (routing.find? fun entry => strStartsWith path entry.2.path).map Prod.snd := by
  induction routing with
  | nil => rfl
  | cons e rest ih =>
    rcases e with ⟨nm, rule⟩
    unfold findFirstRuleMatch
    by_cases hm : strStartsWith path rule.path = true
    · rw [if_pos hm, List.find?_cons_of_pos _ (by simpa using hm)]
      rfl
    · rw [if_neg hm, List.find?_cons_of_neg _ (by simpa using hm)]
      exact ih

/-- Claim C4 (amended): the dispatcher selects the first rule in map
iteration order whose path is a prefix of the request path — not the
longest such prefix — falling back to the rule named `default`, and
responds 404 when neither exists. -/
theorem findRoutingRule_firstMatch :
    (∀ (routing : List (String × RoutingRule)) (path : String),
        findRoutingRule routing path = specFindRoutingRule routing path)
    ∧ (∀ (routing : List (String × RoutingRule)) (path : String) (rule : RoutingRule),
        findRoutingRule routing path = some rule →
        strStartsWith path rule.path = true ∨ routing.lookup "default" = some rule)
    ∧ ∀ (cfg : Config) (ups : List Upstream) (req : Request),
        findRoutingRule cfg.routing req.path = none →
        handleRequest cfg ups req = DispatchOutcome.respond 404 "Not Found" := by
  refine ⟨?_, ?_, ?_⟩
  · intro routing path
    unfold findRoutingRule specFindRoutingRule
    rw [findFirstRuleMatch_eq_find?]
    cases routing.find? fun entry => strStartsWith path entry.2.path with
    | none => rfl
    | some e => rfl
  · intro routing path rule h
    unfold findRoutingRule at h
    rw [findFirstRuleMatch_eq_find?] at h
    cases hf : routing.find? fun entry => strStartsWith path entry.2.path with
    | none =>
      rw [hf] at h
      exact Or.inr h
    | some e =>
      rw [hf] at h
      obtain rfl : e.2 = rule := Option.some.inj h
      have := List.find?_some hf
      exact Or.inl (by simpa using this)
  · intro cfg ups req h
    unfold handleRequest
    rw [h]

theorem findRoutingRule_firstMatch_witness :
    findRoutingRule demoRouting "/api/x" = some ruleRoot
    ∧ (strStartsWith "/api/x" ruleRoot.path = true ∨
        demoRouting.lookup "default" = some ruleRoot) :=
  ⟨by decide, findRoutingRule_firstMatch.2.1 demoRouting "/api/x" ruleRoot (by decide)⟩

/-- Claim C4 counterexample: with the shorter prefix `/` before the
longer `/api` in iteration order, the path `/api/x` is routed by the
`/` rule although the `/api` rule also matches and is longer; reversing
the iteration order flips the outcome, so the choice depends on map
iteration order. -/
theorem findRoutingRule_order_dependent :
    findRoutingRule demoRouting "/api/x" = some ruleRoot
    ∧ findRoutingRule [("r2", ruleApi), ("r1", ruleRoot)] "/api/x" = some ruleApi
    ∧ strStartsWith "/api/x" ruleApi.path = true
    ∧ ruleRoot.path.length < ruleApi.path.length
    ∧ ("r2", ruleApi) ∈ demoRouting := by
  decide

/-- Claim C3 (amended): whenever the pipeline reaches selection and the
policy returns `none`, the dispatcher answers 503 with the literal
connection-limit body, regardless of why the candidates were excluded;
the generic `Service Unavailable` body occurs only for an unknown
upstream or an empty active snapshot. -/
theorem handleRequest_limit_literal :
    ∀ (cfg : Config) (ups : List Upstream) (req : Request) (rule : RoutingRule) (u : Upstream),
      findRoutingRule cfg.routing req.path = some rule →
      getUpstream ups rule.upstream = some u →
      u.getBackends.isEmpty = false →
      selectBackend (getBalancer (determineLBType rule req)) (getClientIP cfg.server req)
          req.rand u.getBackends = none →
      handleRequest cfg ups req =
        DispatchOutcome.respond 503 "Service Unavailable (All backends at connection limit)" := by
  intro cfg ups req rule u h1 h2 h3 h4
  unfold handleRequest
  simp only [h1, h2, h3, h4, Bool.false_eq_true, if_false]

theorem handleRequest_limit_literal_witness :
    findRoutingRule drainingConfig.routing plainRequest.path = some ruleRoot
    ∧ getUpstream drainingUpstreams ruleRoot.upstream = some ⟨"u1", [drainingBackend]⟩
    ∧ (Upstream.getBackends ⟨"u1", [drainingBackend]⟩).isEmpty = false
    ∧ selectBackend (getBalancer (determineLBType ruleRoot plainRequest))
        (getClientIP drainingConfig.server plainRequest) plainRequest.rand
        (Upstream.getBackends ⟨"u1", [drainingBackend]⟩) = none
    ∧ handleRequest drainingConfig drainingUpstreams plainRequest =
        DispatchOutcome.respond 503 "Service Unavailable (All backends at connection limit)" :=
  ⟨by decide, by decide, by decide, by decide,
    handleRequest_limit_literal drainingConfig drainingUpstreams plainRequest ruleRoot
      ⟨"u1", [drainingBackend]⟩ (by decide) (by decide) (by decide) (by decide)⟩

/-- Claim C3 counterexample: when the only candidate is excluded solely
because it is draining (it is far from any connection limit), the body
is still the connection-limit literal, not the generic
`Service Unavailable` the claim requires for that case. -/
theorem handleRequest_draining_gets_limit_message :
    handleRequest drainingConfig drainingUpstreams plainRequest =
      DispatchOutcome.respond 503 "Service Unavailable (All backends at connection limit)"
    ∧ handleRequest drainingConfig drainingUpstreams plainRequest ≠
        DispatchOutcome.respond 503 "Service Unavailable"
    ∧ drainingBackend.shouldDisconnect = true
    ∧ drainingBackend.isConnectionLimitReached = false := by
  decide

theorem firstCommaIdx_spec (l : List Char) :
    (∀ i, firstCommaIdx l = some i →
        l.take i = l.takeWhile (fun c => c ≠ ',') ∧ (0 < i ↔ l.head? ≠ some ',') ∧ ',' ∈ l)
    ∧ (firstCommaIdx l = none → ',' ∉ l) := by
  induction l with
  | nil =>
    constructor
    · intro i h; cases h
    · intro _; simp
  | cons c cs ih =>
    constructor
    · intro i h
      unfold firstCommaIdx at h
      by_cases hc : c = ','
      · rw [if_pos hc] at h
        obtain rfl : (0 : Nat) = i := Option.some.inj h
        subst hc
        refine ⟨by simp, by simp, List.mem_cons_self _ _⟩
      · rw [if_neg hc] at h
        rcases hrec : firstCommaIdx cs with _ | j
        · rw [hrec] at h; cases h
        · rw [hrec] at h
          obtain rfl : j + 1 = i := Option.some.inj h
          obtain ⟨htake, _, hmem⟩ := (ih.1 j hrec)
          refine ⟨?_, ?_, List.mem_cons_of_mem c hmem⟩
          · rw [List.take_succ_cons, List.takeWhile_cons_of_pos (by simpa using hc), htake]
          · simp [hc]
    · intro h
      unfold firstCommaIdx at h
      by_cases hc : c = ','
      · rw [if_pos hc] at h; cases h
      · rw [if_neg hc] at h
        rcases hrec : firstCommaIdx cs with _ | j
        · have := ih.2 hrec
          simp [hc, this, Ne.symm hc]
        · rw [hrec] at h; cases h

/-- Claim C5 (amended): client-IP resolution returns the configured
real-IP header verbatim when present; otherwise, when `X-Forwarded-For`
contains a comma whose first occurrence is after position 0 and the
trimmed text before it itself lies inside a trusted-proxy CIDR, that
trimmed value (the immediate TCP peer is never consulted for the trust
check, and a single-element header without a comma is always ignored);
otherwise the TCP peer address. -/
theorem getClientIP_eq_spec :
    ∀ (cfg : ServerConfig) (req : Request), getClientIP cfg req = specClientIP cfg req := by
  intro cfg req
  unfold getClientIP specClientIP
  by_cases h1 : cfg.realIPHeader ≠ "" ∧ req.peekHeader cfg.realIPHeader ≠ ""
  · rw [if_pos h1, if_pos h1]
  · rw [if_neg h1, if_neg h1]
    rcases hidx : firstCommaIdx (req.peekHeader "X-Forwarded-For").data with _ | i
    · have hnc := (firstCommaIdx_spec (req.peekHeader "X-Forwarded-For").data).2 hidx
      by_cases hx0 : req.peekHeader "X-Forwarded-For" = ""
      · simp [hx0, hidx, hnc]
      · simp [hx0, hidx, hnc]
    · obtain ⟨htake, hiff, hmem⟩ :=
        (firstCommaIdx_spec (req.peekHeader "X-Forwarded-For").data).1 i hidx
      have hxne : req.peekHeader "X-Forwarded-For" ≠ "" := by
        intro h0
        rw [h0] at hmem
        cases hmem
      by_cases hipos : 0 < i
      · have hhead : (req.peekHeader "X-Forwarded-For").data.head? ≠ some ',' := hiff.mp hipos
        simp [hxne, hidx, hipos, htake, hmem, hhead]
        by_cases htrust : isTrustedProxy
            { data := trimSpace (List.takeWhile (fun c => !decide (c = ','))
                (req.peekHeader "X-Forwarded-For").data) } cfg.trustedProxies = true
        · simp [htrust]
        · simp [htrust]
      · have hi0 : i = 0 := by omega
        subst hi0
        have hhead : (req.peekHeader "X-Forwarded-For").data.head? = some ',' := by
          by_contra hne
          exact hipos (hiff.mpr hne)
        simp [hxne, hidx, hipos, hhead, hmem]

/-- Claim C5 counterexample: with no real-IP header, a trusted TCP peer
(10.0.0.1 inside 10.0.0.0/8) and `X-Forwarded-For: 198.51.100.2`, the
claim requires 198.51.100.2, but the code ignores a comma-free header
and returns the peer; with `X-Forwarded-For: 198.51.100.2, 70.1.2.3`
the trust check is applied to 198.51.100.2 (not to the trusted peer),
fails, and the peer address is returned again. -/
theorem getClientIP_xff_counterexample :
    getClientIP xffServerConfig xffSingleRequest = "10.0.0.1"
    ∧ isTrustedProxy xffSingleRequest.remoteIP xffServerConfig.trustedProxies = true
    ∧ getClientIP xffServerConfig xffListRequest = "10.0.0.1"
    ∧ isTrustedProxy "198.51.100.2" xffServerConfig.trustedProxies = false := by
  decide

theorem findSome?_isSome_iff {α β : Type} (f : α → Option β) (l : List α) :
    (l.findSome? f).isSome ↔ ∃ x ∈ l, (f x).isSome := by
  induction l with
  | nil => simp [List.findSome?]
  | cons x xs ih =>
    simp only [List.findSome?]
    cases hf : f x with
    | some v => simp [hf]
    | none => simp [hf, ih]

theorem validateBackend_isSome_iff (upstream : String) (b : Backend) :
    (validateBackend upstream b).isSome ↔ (b.host = "" ∨ b.port < 1 ∨ 65535 < b.port) := by
  unfold validateBackend
  by_cases h1 : b.host = ""
  · simp [h1]
  · by_cases h2 : b.port ≤ 0 ∨ 65535 < b.port
    · simp [h1, h2]
      omega
    · simp [h1, h2]
      omega

theorem validateUpstreamEntry_isSome_iff (entry : String × List Backend) :
    (validateUpstreamEntry entry).isSome ↔
      (entry.2.isEmpty = true ∨
        ∃ b ∈ entry.2, (b.host = "" ∨ b.port < 1 ∨ 65535 < b.port)) := by
  unfold validateUpstreamEntry
  by_cases he : entry.2.isEmpty
  · simp [he]
  · simp [he, findSome?_isSome_iff, validateBackend_isSome_iff]

theorem validateRoutingEntry_isSome_iff (c : Config) (entry : String × RoutingRule) :
    (validateRoutingEntry c entry).isSome ↔
      (entry.2.upstream = "" ∨ c.backends.lookup entry.2.upstream = none) := by
  unfold validateRoutingEntry
  by_cases h1 : entry.2.upstream = ""
  · simp [h1]
  · cases hl : c.backends.lookup entry.2.upstream with
    | some v => simp [h1, hl]
    | none => simp [h1, hl]

theorem claimConfigViolation_iff (c : Config) :
    claimConfigViolation c = true ↔
      ((c.server.port < 1 ∨ 65535 < c.server.port) ∨
        (c.ssl.enabled = true ∧ (c.ssl.certFile = "" ∨ c.ssl.keyFile = "")) ∨
        (∃ e ∈ c.backends, e.2.isEmpty = true) ∨
        (∃ e ∈ c.backends, ∃ b ∈ e.2, (b.host = "" ∨ b.port < 1 ∨ 65535 < b.port)) ∨
        ∃ e ∈ c.routing, c.backends.lookup e.2.upstream = none) := by
  unfold claimConfigViolation
  simp [List.any_eq_true, Option.isNone_iff_eq_none, or_assoc]

theorem ruleHasEmptyUpstreamName_iff (c : Config) :
    ruleHasEmptyUpstreamName c = true ↔ ∃ e ∈ c.routing, e.2.upstream = "" := by
  unfold ruleHasEmptyUpstreamName
  simp [List.any_eq_true]

set_option maxHeartbeats 1600000 in
theorem validateConfig_isSome_iff (c : Config) :
    (validateConfig c).isSome ↔
      (claimConfigViolation c = true ∨ ruleHasEmptyUpstreamName c = true) := by
  have hL : (validateConfig c).isSome ↔
      ((c.server.port ≤ 0 ∨ 65535 < c.server.port) ∨
        (c.ssl.enabled = true ∧ c.ssl.certFile = "") ∨
        (c.ssl.enabled = true ∧ c.ssl.keyFile = "") ∨
        (∃ e ∈ c.backends, (validateUpstreamEntry e).isSome) ∨
        ∃ e ∈ c.routing, (validateRoutingEntry c e).isSome) := by
    unfold validateConfig
    by_cases h1 : c.server.port ≤ 0 ∨ 65535 < c.server.port
    · rw [if_pos h1]
      exact iff_of_true rfl (Or.inl h1)
    · by_cases h2 : c.ssl.enabled = true ∧ c.ssl.certFile = ""
      · rw [if_neg h1, if_pos h2]
        exact iff_of_true rfl (Or.inr (Or.inl h2))
      · by_cases h3 : c.ssl.enabled = true ∧ c.ssl.keyFile = ""
        · rw [if_neg h1, if_neg h2, if_pos h3]
          exact iff_of_true rfl (Or.inr (Or.inr (Or.inl h3)))
        · rw [if_neg h1, if_neg h2, if_neg h3]
          cases hb : c.backends.findSome? validateUpstreamEntry with
          | some e =>
            have hx : ∃ x ∈ c.backends, (validateUpstreamEntry x).isSome :=
              (findSome?_isSome_iff _ _).mp (by simp [hb])
            exact iff_of_true rfl (Or.inr (Or.inr (Or.inr (Or.inl hx))))
          | none =>
            have hnone : ¬ ∃ x ∈ c.backends, (validateUpstreamEntry x).isSome := by
              rw [← findSome?_isSome_iff]
              simp [hb]
            show (c.routing.findSome? (validateRoutingEntry c)).isSome ↔ _
            rw [findSome?_isSome_iff]
            constructor
            · intro hr
              exact Or.inr (Or.inr (Or.inr (Or.inr hr)))
            · rintro (hD | hD | hD | hD | hD)
              · exact absurd hD h1
              · exact absurd hD h2
              · exact absurd hD h3
              · exact absurd hD hnone
              · exact hD
  rw [hL, claimConfigViolation_iff, ruleHasEmptyUpstreamName_iff]
  have hport : (c.server.port ≤ 0) ↔ (c.server.port < 1) := by omega
  have hBE : (∃ e ∈ c.backends, (validateUpstreamEntry e).isSome) ↔
      ((∃ e ∈ c.backends, e.2.isEmpty = true) ∨
        ∃ e ∈ c.backends, ∃ b ∈ e.2, (b.host = "" ∨ b.port < 1 ∨ 65535 < b.port)) := by
    constructor
    · rintro ⟨e, he, hv⟩
      rcases (validateUpstreamEntry_isSome_iff e).mp hv with h | h
      · exact Or.inl ⟨e, he, h⟩
      · exact Or.inr ⟨e, he, h⟩
    · rintro (⟨e, he, h⟩ | ⟨e, he, h⟩)
      · exact ⟨e, he, (validateUpstreamEntry_isSome_iff e).mpr (Or.inl h)⟩
      · exact ⟨e, he, (validateUpstreamEntry_isSome_iff e).mpr (Or.inr h)⟩
  have hRT : (∃ e ∈ c.routing, (validateRoutingEntry c e).isSome) ↔
      ((∃ e ∈ c.routing, e.2.upstream = "") ∨
        ∃ e ∈ c.routing, c.backends.lookup e.2.upstream = none) := by
    constructor
    · rintro ⟨e, he, hv⟩
      rcases (validateRoutingEntry_isSome_iff c e).mp hv with h | h
      · exact Or.inl ⟨e, he, h⟩
      · exact Or.inr ⟨e, he, h⟩
    · rintro (⟨e, he, h⟩ | ⟨e, he, h⟩)
      · exact ⟨e, he, (validateRoutingEntry_isSome_iff c e).mpr (Or.inl h)⟩
      · exact ⟨e, he, (validateRoutingEntry_isSome_iff c e).mpr (Or.inr h)⟩
  rw [hport, hBE, hRT]
  constructor
  · rintro (h | ⟨hen, hc⟩ | ⟨hen, hk⟩ | (h | h) | (h | h))
    · exact Or.inl (Or.inl h)
    · exact Or.inl (Or.inr (Or.inl ⟨hen, Or.inl hc⟩))
    · exact Or.inl (Or.inr (Or.inl ⟨hen, Or.inr hk⟩))
    · exact Or.inl (Or.inr (Or.inr (Or.inl h)))
    · exact Or.inl (Or.inr (Or.inr (Or.inr (Or.inl h))))
    · exact Or.inr h
    · exact Or.inl (Or.inr (Or.inr (Or.inr (Or.inr h))))
  · rintro ((h | ⟨hen, hc | hk⟩ | h | h | h) | h)
    · exact Or.inl h
    · exact Or.inr (Or.inl ⟨hen, hc⟩)
    · exact Or.inr (Or.inr (Or.inl ⟨hen, hk⟩))
    · exact Or.inr (Or.inr (Or.inr (Or.inl (Or.inl h))))
    · exact Or.inr (Or.inr (Or.inr (Or.inl (Or.inr h))))
    · exact Or.inr (Or.inr (Or.inr (Or.inr (Or.inr h))))
    · exact Or.inr (Or.inr (Or.inr (Or.inr (Or.inl h))))

/-- Claim C6 (amended): `UpdateConfig` returns an error exactly when
the candidate violates one of the claim's validation rules or contains
a routing rule whose upstream name is the empty string (the code
rejects an empty upstream name even when a backend entry for the empty
name exists); on error neither the live configuration nor the on-disk
file is modified. -/
theorem updateConfig_error_characterisation :
    ∀ (st : ManagerState) (c : Config),
      ((updateConfig st c).1.isSome ↔
        (claimConfigViolation c = true ∨ ruleHasEmptyUpstreamName c = true))
      ∧ ∀ e, (updateConfig st c).1 = some e → (updateConfig st c).2 = st := by
  intro st c
  have hiff := validateConfig_isSome_iff c
  constructor
  · unfold updateConfig
    cases hv : validateConfig c with
    | some e =>
      simp only [hv, Option.isSome_some, true_iff] at hiff
      simpa using hiff
    | none =>
      simp only [hv, Option.isSome_none, false_iff] at hiff
      simpa using hiff
  · intro e h
    unfold updateConfig at h ⊢
    cases hv : validateConfig c with
    | some e2 => simp [hv]
    | none =>
      rw [hv] at h
      cases h

theorem updateConfig_error_characterisation_witness :
    (updateConfig ⟨baseConfig, baseConfig⟩ emptyNameConfig).1 =
        some "invalid config: upstream is required for routing rule r1"
    ∧ (updateConfig ⟨baseConfig, baseConfig⟩ emptyNameConfig).2 = ⟨baseConfig, baseConfig⟩ :=
  ⟨by decide,
    (updateConfig_error_characterisation ⟨baseConfig, baseConfig⟩ emptyNameConfig).2
      "invalid config: upstream is required for routing rule r1" (by decide)⟩

/-- Claim C6 counterexample: `emptyNameConfig` satisfies every rule on
the claim's list (its routing rule's upstream name, the empty string,
does have a backend entry), yet `UpdateConfig` rejects it, so "error
exactly when one of the listed rules is violated" fails. -/
theorem updateConfig_rejects_emptyName :
    (updateConfig ⟨baseConfig, baseConfig⟩ emptyNameConfig).1.isSome = true
    ∧ claimConfigViolation emptyNameConfig = false := by
  decide

theorem updateBackendInList_isSome_iff (bid : String) (n : Int) (l : List Backend) :
    (updateBackendInList bid n l).isSome ↔
      ∃ b ∈ l, ((b.isActive && b.activeField) && b.id == bid) = true := by
  induction l with
  | nil => simp [updateBackendInList]
  | cons b rest ih =>
    unfold updateBackendInList
    by_cases hb : ((b.isActive && b.activeField) && b.id == bid) = true
    · rw [if_pos hb]
      exact iff_of_true (by simp) ⟨b, List.mem_cons_self _ _, hb⟩
    · rw [if_neg hb]
      cases hr : updateBackendInList bid n rest with
      | some l2 =>
        obtain ⟨x, hm, hp⟩ := ih.mp (by simp [hr])
        exact iff_of_true (by simp) ⟨x, List.mem_cons_of_mem b hm, hp⟩
      | none =>
        constructor
        · intro h
          exact absurd h (by simp)
        · rintro ⟨x, hm, hp⟩
          rcases List.mem_cons.mp hm with rfl | hm2
          · exact absurd hp hb
          · have hx : (updateBackendInList bid n rest).isSome = true := ih.mpr ⟨x, hm2, hp⟩
            rw [hr] at hx
            exact absurd hx (by simp)

theorem updateBackendInList_some_mem (bid : String) (n : Int) (l l2 : List Backend)
    (h : updateBackendInList bid n l = some l2) :
    ∃ b2 ∈ l2, ((b2.isActive && b2.activeField) && b2.id == bid) = true ∧ b2.maxConn = n := by
  induction l generalizing l2 with
  | nil => cases h
  | cons b rest ih =>
    unfold updateBackendInList at h
    by_cases hb : ((b.isActive && b.activeField) && b.id == bid) = true
    · rw [if_pos hb] at h
      obtain rfl := Option.some.inj h
      refine ⟨{ b with maxConn := n }, List.mem_cons_self _ _, ?_, rfl⟩
      simpa [Backend.isActive] using hb
    · rw [if_neg hb] at h
      cases hr : updateBackendInList bid n rest with
      | some rest2 =>
        rw [hr] at h
        obtain rfl := Option.some.inj h
        obtain ⟨b2, hm, hp, hmc⟩ := ih rest2 hr
        exact ⟨b2, List.mem_cons_of_mem b hm, hp, hmc⟩
      | none =>
        rw [hr] at h
        cases h

theorem getUpstream_replaceUpstreamBackends (name : String) (bs : List Backend)
    (ups : List Upstream) :
    getUpstream (replaceUpstreamBackends name bs ups) name =
      (getUpstream ups name).map fun u => { u with backends := bs } := by
  induction ups with
  | nil => rfl
  | cons u rest ih =>
    by_cases hu : (u.name == name) = true
    · simp only [replaceUpstreamBackends, if_pos hu]
      unfold getUpstream
      have h1 : List.find? (fun x => x.name == name) ({ u with backends := bs } :: rest) =
          some { u with backends := bs } :=
        List.find?_cons_of_pos _ hu
      have h2 : List.find? (fun x => x.name == name) (u :: rest) = some u :=
        List.find?_cons_of_pos _ hu
      rw [h1, h2]
      rfl
    · simp only [replaceUpstreamBackends, if_neg hu]
      unfold getUpstream
      have h1 : List.find? (fun x => x.name == name) (u :: replaceUpstreamBackends name bs rest) =
          List.find? (fun x => x.name == name) (replaceUpstreamBackends name bs rest) :=
        List.find?_cons_of_neg _ (by simpa using hu)
      have h2 : List.find? (fun x => x.name == name) (u :: rest) =
          List.find? (fun x => x.name == name) rest :=
        List.find?_cons_of_neg _ (by simpa using hu)
      rw [h1, h2]
      unfold getUpstream at ih
      exact ih

/-- Claim C9 (amended): with both identifiers non-empty,
`handleUpdateBackend` succeeds exactly when the upstream exists and its
**active-filtered** snapshot contains the backend ID — an existing but
inactive backend is reported not-found, because the handler scans
`GetBackends()`; on success the updated backend carries the new
`MaxConn` and is visible in the very next `GetBackends()` snapshot the
selection path consumes; on failure the registry is untouched. -/
theorem handleUpdateBackend_spec :
    ∀ (ups : List Upstream) (uid bid : String) (n : Int),
      uid ≠ "" → bid ≠ "" →
      (((handleUpdateBackend ups uid bid n).1 = UpdateBackendResult.ok) ↔
        ∃ u, getUpstream ups uid = some u ∧ ∃ b ∈ u.getBackends, b.id = bid)
      ∧ (((handleUpdateBackend ups uid bid n).1 = UpdateBackendResult.ok) →
          ∃ u2, getUpstream (handleUpdateBackend ups uid bid n).2 uid = some u2 ∧
            ∃ b2 ∈ u2.getBackends, b2.id = bid ∧ b2.maxConn = n)
      ∧ (((handleUpdateBackend ups uid bid n).1 ≠ UpdateBackendResult.ok) →
          (handleUpdateBackend ups uid bid n).2 = ups) := by
  intro ups uid bid n huid hbid
  cases hu : getUpstream ups uid with
  | none =>
    have hval : handleUpdateBackend ups uid bid n =
        (UpdateBackendResult.notFound "upstream not found", ups) := by
      unfold handleUpdateBackend
      rw [if_neg (not_or.mpr ⟨huid, hbid⟩)]
      simp only [hu]
    refine ⟨?_, ?_, ?_⟩
    · rw [hval]
      constructor
      · intro h
        simp at h
      · rintro ⟨u', hsome, _⟩
        cases hsome
    · rw [hval]
      intro h
      simp at h
    · intro _
      rw [hval]
  | some u =>
    have hconn : (∃ b ∈ u.getBackends, b.id = bid) ↔
        (updateBackendInList bid n u.backends).isSome := by
      rw [updateBackendInList_isSome_iff]
      unfold Upstream.getBackends
      constructor
      · rintro ⟨b, hm, hid⟩
        rw [List.mem_filter] at hm
        refine ⟨b, hm.1, ?_⟩
        simp only [Bool.and_eq_true, beq_iff_eq] at hm ⊢
        exact ⟨hm.2, hid⟩
      · rintro ⟨b, hm, hp⟩
        simp only [Bool.and_eq_true, beq_iff_eq] at hp
        refine ⟨b, List.mem_filter.mpr ⟨hm, ?_⟩, hp.2⟩
        simp [hp.1.1, hp.1.2]
    cases hr : updateBackendInList bid n u.backends with
    | none =>
      have hval : handleUpdateBackend ups uid bid n =
          (UpdateBackendResult.notFound "backend not found", ups) := by
        unfold handleUpdateBackend
        rw [if_neg (not_or.mpr ⟨huid, hbid⟩)]
        simp only [hu, hr]
      refine ⟨?_, ?_, ?_⟩
      · rw [hval]
        constructor
        · intro h
          simp at h
        · rintro ⟨u', hsome, hex⟩
          obtain rfl := Option.some.inj hsome
          have hx := hconn.mp hex
          rw [hr] at hx
          exact absurd hx (by simp)
      · rw [hval]
        intro h
        simp at h
      · intro _
        rw [hval]
    | some bs2 =>
      have hval : handleUpdateBackend ups uid bid n =
          (UpdateBackendResult.ok, replaceUpstreamBackends uid bs2 ups) := by
        unfold handleUpdateBackend
        rw [if_neg (not_or.mpr ⟨huid, hbid⟩)]
        simp only [hu, hr]
      refine ⟨?_, ?_, ?_⟩
      · rw [hval]
        exact iff_of_true rfl ⟨u, rfl, hconn.mpr (by simp [hr])⟩
      · rw [hval]
        intro _
        show ∃ u2, getUpstream (replaceUpstreamBackends uid bs2 ups) uid = some u2 ∧ _
        rw [getUpstream_replaceUpstreamBackends, hu]
        refine ⟨{ u with backends := bs2 }, rfl, ?_⟩
        obtain ⟨b2, hm, hp, hmc⟩ := updateBackendInList_some_mem bid n u.backends bs2 hr
        simp only [Bool.and_eq_true, beq_iff_eq] at hp
        refine ⟨b2, ?_, hp.2, hmc⟩
        show b2 ∈ ({ u with backends := bs2 } : Upstream).backends.filter _
        exact List.mem_filter.mpr ⟨hm, by simp [hp.1.1, hp.1.2]⟩
      · rw [hval]
        intro h
        exact absurd rfl h

theorem handleUpdateBackend_spec_witness :
    ("u1" : String) ≠ "" ∧ ("b1" : String) ≠ ""
    ∧ (((handleUpdateBackend [⟨"u1", [idleBackend]⟩] "u1" "b1" 555).1 =
          UpdateBackendResult.ok) ↔
        ∃ u, getUpstream [⟨"u1", [idleBackend]⟩] "u1" = some u ∧
          ∃ b ∈ u.getBackends, b.id = "b1") :=
  ⟨by decide, by decide,
    (handleUpdateBackend_spec [⟨"u1", [idleBackend]⟩] "u1" "b1" 555
      (by decide) (by decide)).1⟩

/-- Claim C9 counterexample: upstream `u1` exists and holds a backend
with ID `b1`, but that backend's active flag is false, so
`handleUpdateBackend` answers `backend not found` although both
identifiers exist in the registry. -/
theorem handleUpdateBackend_inactive_notFound :
    (handleUpdateBackend inactiveRegistry "u1" "b1" 500).1 =
        UpdateBackendResult.notFound "backend not found"
    ∧ getUpstream inactiveRegistry "u1" = some ⟨"u1", [inactiveIdleBackend]⟩
    ∧ inactiveIdleBackend.id = "b1"
    ∧ inactiveIdleBackend.activeField = false := by
  decide

end SpeedMimi
